import Mathlib

/-
Verification of the feedback-extraction and score-aggregation pipeline of the
Auto-TOEFL-Speaking-Evaluator scripts.

Embedding conventions:
* Python floats are modelled as rationals (`ℚ`).  Every value the claims touch
  (scores of the form d.d, their halves and sums, and the conversion-table
  entries and their means) is exactly representable in binary floating point,
  so rational arithmetic agrees with the source on all inputs the theorems
  mention.
* Python dicts are modelled as association lists in insertion order; dict
  membership and indexing become `lookupA`.
* `re.search` with the concrete patterns of the source is modelled by a
  left-to-right scan (`findScoreAux`, `findRevisedAux`) that at each position
  tries the full pattern (literal label followed by digit, dot, digit — or for
  the revision, label followed by the whitespace-trimmed remainder).
* File I/O is modelled by passing the file system as an association list; a
  `with open` on a missing name becomes `Except.error`, `os.path.exists`
  becomes a membership test.
* The one network call of `evaluate_student_response` is modelled by the
  result type `EvalResult`: `noCall` is the empty-response fast path that
  returns the sentinel without contacting the service, `call b` records that a
  request was sent, with `b` telling whether the topic-development prompt
  variant was used.  The prompt text itself is not inspected by any claim and
  is abstracted away.
-/

set_option linter.unusedVariables false

/- Batteries marks the arithmetic on `Rat` `@[irreducible]`, which stops
`decide` from evaluating concrete rational expressions; restore the default
reducibility for this file so concrete score computations can be checked by
evaluation. -/
attribute [local semireducible] Rat.add Rat.mul Rat.inv Rat.sub

deriving instance DecidableEq for Except

/-! ## Basic text utilities (Python `str.strip`, character classes) -/

/-- Whitespace characters recognised by Python `str.strip()` / regex `\s`
(restricted to the ASCII range; every string in the claims is ASCII). -/
def pyIsSpace (c : Char) : Bool :=
  c == ' ' || c == '\t' || c == '\n' || c == '\r' || c == '\x0b' || c == '\x0c'

/-- ASCII decimal digit, the `\d` class of the source's patterns. -/
def pyIsDigit (c : Char) : Bool :=
  48 ≤ c.toNat && c.toNat ≤ 57

/-- Numeric value of a digit character. -/
def digitVal (c : Char) : ℕ := c.toNat - 48

/-- Remove the longest suffix of characters satisfying `p`. -/
def dropTrail (p : Char → Bool) (l : List Char) : List Char :=
  (l.reverse.dropWhile p).reverse

/-- Python `str.strip()` on a character list. -/
def pyStrip (l : List Char) : List Char :=
  dropTrail pyIsSpace (l.dropWhile pyIsSpace)

/-- Python `str.strip()` on a string. -/
def pyStripS (s : String) : String :=
  (pyStrip s.toList).asString

/-- First-match association-list lookup: Python dict indexing/membership. -/
def lookupA {α β : Type} [DecidableEq α] (s : α) : List (α × β) → Option β
  | [] => none
  | (m, v) :: rest => if m = s then some v else lookupA s rest

/-! ## ScoreCalculator.convert_raw_to_toefl -/

/-- The fixed raw-to-TOEFL conversion table of `ScoreCalculator.py`. -/
def convTable : List (ℤ × ℚ) :=
  [(0, 0), (1, 2), (2, 4), (3, 6), (4, 8), (5, 9),
   (6, 11), (7, 13), (8, 15), (9, 17), (10, 19),
   (11, 21), (12, 23), (13, 24), (14, 26), (15, 28), (16, 30)]

/-- The conversion table with its integer keys viewed as Python floats:
`raw_score in conversion_table` compares the float argument with the integer
keys by numeric equality. -/
def qKeyTable : List (ℚ × ℚ) :=
  convTable.map (fun p => ((p.1 : ℚ), p.2))

/-- Python `int()` applied to a float: truncation toward zero. -/
def pytrunc (q : ℚ) : ℤ := q.num.tdiv q.den

/-- `ScoreCalculator.convert_raw_to_toefl`: exact table hit, else one-step
interpolation from `lower = int(raw_score)` and `upper = lower + 1`, else
`None`. -/
def convert_raw_to_toefl (r : ℚ) : Option ℚ :=
  match lookupA r qKeyTable with
  | some v => some v
  | none =>
    match lookupA (pytrunc r) convTable, lookupA (pytrunc r + 1) convTable with
    | some a, some b => some ((a + b) / 2)
    | _, _ => none

/-- Spec-side view of the table as a total function (defaulting to 0 outside
the 17 keys; only used under an in-range hypothesis). -/
def tableVal (n : ℤ) : ℚ := (lookupA n convTable).getD 0

/-! ## Regex models: the three patterns used by the parsers

`re.search` tries to match the whole pattern at each position from left to
right.  The score pattern is a literal label (including its trailing space)
followed by digit, dot, digit; the revision pattern is a literal label
followed by `\s*(.*)` under `re.DOTALL`, whose stripped capture equals the
whitespace-stripped remainder of the text. -/

/-- Scan for the first position where `tag` is followed by `\d\.\d` and
return the matched score as a rational (Python `float(match.group(1))`). -/
def findScoreAux (tag : List Char) : List Char → Option ℚ
  | [] => none
  | c :: rest =>
    if tag.isPrefixOf (c :: rest) then
      match (c :: rest).drop tag.length with
      | d1 :: d2 :: d3 :: _ =>
        if pyIsDigit d1 && d2 == '.' && pyIsDigit d3 then
          some ((digitVal d1 : ℚ) + (digitVal d3 : ℚ) / 10)
        else findScoreAux tag rest
      | _ => findScoreAux tag rest
    else findScoreAux tag rest

/-- Scan for the first occurrence of `tag`; the stripped `\s*(.*)` capture is
the whitespace-stripped remainder of the text. -/
def findRevisedAux (tag : List Char) : List Char → Option (List Char)
  | [] => none
  | c :: rest =>
    if tag.isPrefixOf (c :: rest) then some (pyStrip ((c :: rest).drop tag.length))
    else findRevisedAux tag rest

/-- Literal part of `\*\*Score for Language Use:\*\* (\d\.\d)`. -/
def luTag : List Char := "**Score for Language Use:** ".toList

/-- Literal part of `\*\*Score for Topic Development:\*\* (\d\.\d)`. -/
def tdTag : List Char := "**Score for Topic Development:** ".toList

/-- Literal part of `\*\*Revised Version:\*\*\s*(.*)`. -/
def revTag : List Char := "**Revised Version:**".toList

/-! ## ScoreCalculator.read_scores_from_json and the aggregation -/

/-- `ScoreCalculator.read_scores_from_json`, with the JSON file contents
abstracted to the mapping it denotes (student name to feedback text, in
insertion order).  A student is recorded with the mean of the two scores
exactly when both regexes match; otherwise the student is skipped. -/
def read_scores_from_json : List (String × String) → List (String × ℚ)
  | [] => []
  | (n, fb) :: rest =>
    match findScoreAux luTag fb.toList, findScoreAux tdTag fb.toList with
    | some lu, some td => (n, (lu + td) / 2) :: read_scores_from_json rest
    | _, _ => read_scores_from_json rest

/-- One step of the accumulation loop of
`calculate_total_raw_and_toefl_scores`: append `v` to the score list of
student `n`, creating the entry if absent (Python dict insertion order). -/
def addScore : List (String × List ℚ) → String → ℚ → List (String × List ℚ)
  | [], n, v => [(n, [v])]
  | (m, l) :: rest, n, v =>
    if m = n then (m, l ++ [v]) :: rest else (m, l) :: addScore rest n v

/-- Fold one task's score mapping into the accumulator (the inner loop of
`calculate_total_raw_and_toefl_scores`). -/
def processTaskScores (acc : List (String × List ℚ)) (task : List (String × ℚ)) :
    List (String × List ℚ) :=
  task.foldl (fun a p => addScore a p.1 p.2) acc

/-- The `total_scores` dict after processing all tasks. -/
def totalScores (tasks : List (List (String × ℚ))) : List (String × List ℚ) :=
  tasks.foldl processTaskScores []

/-- The `raw_scores` dict of `calculate_total_raw_and_toefl_scores`: each
student is mapped to the sum of their per-task overall scores. -/
def rawScores (tasks : List (List (String × ℚ))) : List (String × ℚ) :=
  (totalScores tasks).map (fun p => (p.1, p.2.sum))

/-- The `toefl_scores` dict of `calculate_total_raw_and_toefl_scores`. -/
def toeflScores (tasks : List (List (String × ℚ))) : List (String × Option ℚ) :=
  (rawScores tasks).map (fun p => (p.1, convert_raw_to_toefl p.2))

/-- Spec-side helper: the scores recorded for student `s` in one task
mapping, in order. -/
def taskScoresOf (s : String) : List (String × ℚ) → List ℚ
  | [] => []
  | (m, v) :: rest =>
    if m = s then v :: taskScoresOf s rest else taskScoresOf s rest

/-- Spec-side helper: all scores of student `s` across the tasks, in task
order; tasks without a record for `s` contribute nothing. -/
def scoresOf (s : String) : List (List (String × ℚ)) → List ℚ
  | [] => []
  | t :: ts => taskScoresOf s t ++ scoresOf s ts

/-! ## ScoreCalculator.save_scores_to_files -/

/-- Python `[int(score) for score in toefl_scores.values()]`: truncation
toward zero for each float; a `None` entry raises `TypeError` when reached. -/
def mapPyInt : List (Option ℚ) → Except String (List ℤ)
  | [] => .ok []
  | none :: _ => .error "TypeError: int() argument cannot be NoneType"
  | some q :: rest =>
    match mapPyInt rest with
    | .ok l => .ok (pytrunc q :: l)
    | .error e => .error e

/-- `ScoreCalculator.save_scores_to_files`: build the rows
(student name, int TOEFL score, raw score) of the persisted table, or raise
if any scaled score is `None`.  Writing CSV/Excel is abstracted to returning
the rows. -/
def save_scores_to_files (raw : List (String × ℚ)) (toefl : List (String × Option ℚ)) :
    Except String (List (String × ℤ × ℚ)) :=
  match mapPyInt (toefl.map Prod.snd) with
  | .error e => .error e
  | .ok ints => .ok (List.zipWith (fun p i => (p.1, i, p.2)) raw ints)

/-! ## FeedbackFormatter -/

/-- `clean_text` (identical in `FeedbackFormatter.py` and `mdMaker.py`) on a
character list: `text.strip()` followed by `re.sub` with `^"+|"+$`, which
removes the whole run of leading double quotes and the whole run of trailing
double quotes in one pass (the stripped whitespace is not re-examined). -/
def cleanTextL (l : List Char) : List Char :=
  dropTrail (· == '"') ((pyStrip l).dropWhile (· == '"'))

/-- `clean_text` on strings. -/
def clean_text (s : String) : String :=
  (cleanTextL s.toList).asString

/-- Reading of claim C6's words: after stripping whitespace, remove exactly
one leading and exactly one trailing double-quote character. -/
def clean_text_one_layer (s : String) : String :=
  let t := pyStrip s.toList
  let t1 := match t with
    | '"' :: rest => rest
    | _ => t
  let t2 := match t1.reverse with
    | '"' :: rest => rest.reverse
    | _ => t1
  t2.asString

/-- A span of a rendered word-level diff. -/
inductive Span
  | unchanged (ws : List String)
  | deleted (ws : List String)
  | inserted (ws : List String)
  deriving DecidableEq, Repr

/-- Split a character list into maximal whitespace-free words; `cur` is the
reversed word currently being read. -/
def splitWords (cur : List Char) : List Char → List String
  | [] => if cur = [] then [] else [cur.reverse.asString]
  | c :: rest =>
    if pyIsSpace c then
      if cur = [] then splitWords [] rest
      else cur.reverse.asString :: splitWords [] rest
    else splitWords (c :: cur) rest

/-- Whitespace-separated words of a string (the token level at which the
diff is rendered). -/
def toWords (s : String) : List String :=
  splitWords [] s.toList

/-- Modelled from the spec: the diff itself is produced by the external
`Redlines` library, which is not part of this repository; only the contract
of §4.4 is modelled (word-level spans; identical inputs yield no
inserted/deleted span; an empty side yields everything inserted/deleted).
The preprocessing by `clean_text` is the source's own code. -/
def render_diff (orig revised : String) : List Span :=
  let o := toWords (clean_text orig)
  let r := toWords (clean_text revised)
  if o = r then (if o = [] then [] else [Span.unchanged o])
  else
    (if o = [] then [] else [Span.deleted o]) ++
    (if r = [] then [] else [Span.inserted r])

/-- Test whether a span is a deletion. -/
def Span.isDel : Span → Bool
  | deleted _ => true
  | _ => false

/-- Test whether a span is an insertion. -/
def Span.isIns : Span → Bool
  | inserted _ => true
  | _ => false

/-- `FeedbackFormatter.process_responses`, reduced to the rows it appends to
the DataFrame: input is the decoded JSON mapping (student, original_response,
feedback); a row (name, language use, topic development, overall, original,
revised) is appended exactly when all three regexes match on the stripped
feedback, otherwise the student is skipped. -/
def process_responses_rows :
    List (String × String × String) → List (String × ℚ × ℚ × ℚ × String × String)
  | [] => []
  | (n, orig, fb) :: rest =>
    let fbL := pyStrip fb.toList
    match findScoreAux luTag fbL, findScoreAux tdTag fbL, findRevisedAux revTag fbL with
    | some lu, some td, some rev =>
      (n, lu, td, (lu + td) / 2, pyStripS orig, rev.asString) :: process_responses_rows rest
    | _, _, _ => process_responses_rows rest

/-! ## EvaluationEngine -/

/-- The literal sentinel returned for empty responses. -/
def sentinelMsg : String :=
  "No response provided. Unable to evaluate language use or topic development."

/-- Outcome of `evaluate_student_response`: either the empty-response fast
path that performs no network call, or one request to the external service,
recording whether the topic-development prompt variant was used. -/
inductive EvalResult
  | noCall (text : String)
  | call (withTD : Bool)
  deriving DecidableEq, Repr

/-- The `"\n".join(f"{score}: {desc}" ...)` rendering of a rubric dict.
(The numeral formatting differs from Python's float `repr`, but the only
property the source consults is whether the joined string is empty.) -/
def renderRubric : List (ℚ × String) → String
  | [] => ""
  | [(sc, d)] => toString sc ++ ": " ++ d
  | (sc, d) :: rest => toString sc ++ ": " ++ d ++ "\n" ++ renderRubric rest

/-- `EvaluationEngine.evaluate_student_response`.  An empty (after `strip`)
response short-circuits to the sentinel with no service call; otherwise one
request is sent, using the topic-development prompt variant exactly when a
topic-development rubric was supplied, is truthy (non-empty dict), and its
rendering is truthy (non-empty string).  The prompt text is abstracted. -/
def evaluate_student_response (question response : String)
    (language_use_rubric : List (ℚ × String))
    (topic_development_rubric : Option (List (ℚ × String)))
    (reading_transcript listening_transcript : Option String) : EvalResult :=
  if pyStripS response = "" then .noCall sentinelMsg
  else
    match topic_development_rubric with
    | some r =>
      if r = [] then .call false
      else if renderRubric r = "" then .call false else .call true
    | none => .call false

/-- The language-use rubric of `grade_task` (used for every task). -/
def language_use_rubric : List (ℚ × String) :=
  [(4, "The response demonstrates effective use of grammar and vocabulary. It exhibits a fairly high degree of automaticity with good control of basic and complex structures (as appropriate). Some minor (or systematic) errors are noticeable but do not obscure meaning."),
   (3, "The response demonstrates fairly automatic and effective use of grammar and vocabulary, and fairly coherent expression of relevant ideas. Response may exhibit some imprecise or inaccurate use of vocabulary or grammatical structures or be somewhat limited in the range of structures used. This may affect overall fluency, but it does not seriously interfere with the communication of the message."),
   (2, "The response demonstrates limited range and control of grammar and vocabulary. These limitations often prevent full expression of ideas. For the most part, only basic sentence structures are used successfully and spoken with fluidity. Structures and vocabulary may express mainly simple (short) and/or general propositions, with simple or unclear connections made among them (serial listing, conjunction, juxtaposition)."),
   (1, "Range and control of grammar and vocabulary severely limit or prevent expression of ideas and connections among ideas. Some low-level responses may rely heavily on practiced or formulaic expressions."),
   (0, "Speaker makes no attempt to respond OR response is unrelated to the topic.")]

/-- The topic-development rubric `grade_task` selects for task `'1'`
(independent tasks). -/
def indep_topic_rubric : List (ℚ × String) :=
  [(4, "Response is sustained and sufficient to the task. It is generally well developed and coherent; relationships between ideas are clear (or there is a clear progression of ideas)."),
   (3, "Response is mostly coherent and sustained and conveys relevant ideas/information. Overall development is somewhat limited, usually lacks elaboration or specificity. Relationships between ideas may at times not be immediately clear."),
   (2, "The response is connected to the task, though the number of ideas presented or the development of ideas is limited. Mostly basic ideas are expressed with limited elaboration (details and support). At times relevant substance may be vaguely expressed or repetitious. Connections of ideas may be unclear."),
   (1, "Limited relevant content is expressed. The response generally lacks substance beyond expression of very basic ideas. Speaker may be unable to sustain speech to complete the task and may rely heavily on repetition of the prompt."),
   (0, "Speaker makes no attempt to respond OR response is unrelated to the topic.")]

/-- The topic-development rubric `grade_task` selects for every other task
number (integrated tasks 2, 3 and 4). -/
def integ_topic_rubric : List (ℚ × String) :=
  [(4, "The response presents a clear progression of ideas and conveys the relevant information required by the task. It includes appropriate detail, though it may have minor errors or minor omissions."),
   (3, "The response is sustained and conveys relevant information required by the task. However, it exhibits some incompleteness, inaccuracy, lack of specificity with respect to content, or choppiness in the progression of ideas."),
   (2, "The response conveys some relevant information but is clearly incomplete or inaccurate. It is incomplete if it omits key ideas, makes vague reference to key ideas, or demonstrates limited development of important information. An inaccurate response demonstrates misunderstanding of key ideas from the stimulus. Typically, ideas expressed may not be well-connected or cohesive so that familiarity with the stimulus is necessary to follow what is being discussed."),
   (1, "The response fails to provide much relevant content. Ideas that are expressed are often inaccurate, limited to vague utterances, or repetitions (including repetition of prompt)."),
   (0, "Speaker makes no attempt to respond OR response is unrelated to the topic.")]

/-- The topic-development rubric selection of `grade_task`: the independent
variant for task `'1'`, the integrated variant otherwise. -/
def topicRubricFor (task_number : String) : List (ℚ × String) :=
  if task_number = "1" then indep_topic_rubric else integ_topic_rubric

/-! ## mdMaker task detection and the ScoreCalculator batch -/

/-- The per-task required input files of `detect_available_tasks`. -/
def requiredFiles (n : ℕ) : List String :=
  ["task" ++ toString n ++ "_question.txt"] ++
    (if n = 2 ∨ n = 3 then
      ["task" ++ toString n ++ "_reading.txt", "task" ++ toString n ++ "_listening.txt"]
    else if n = 4 then ["task" ++ toString n ++ "_listening.txt"]
    else [])

/-- The missing required files of task `n`, the file system being the list
of present file names (`os.path.exists`). -/
def missingFiles (fs : List String) (n : ℕ) : List String :=
  (requiredFiles n).filter (fun f => !(fs.contains f))

/-- `mdMaker.detect_available_tasks`: the loop over tasks 1–4 appends each
task either to the available list (all required files present) or, with its
missing files, to the report; equivalently a filter and a filterMap over the
task list. -/
def detect_available_tasks (fs : List String) : List ℕ × List (ℕ × List String) :=
  ([1, 2, 3, 4].filter (fun t => missingFiles fs t = []),
   [1, 2, 3, 4].filterMap (fun t =>
     if missingFiles fs t = [] then none else some (t, missingFiles fs t)))

/-- `read_scores_from_json` including its `with open`: the file system maps
responses-file names to the mapping they contain; a missing name raises
`FileNotFoundError`. -/
def read_scores_from_json_fs (jfs : List (String × List (String × String)))
    (file : String) : Except String (List (String × ℚ)) :=
  match lookupA file jfs with
  | none => .error ("FileNotFoundError: " ++ file)
  | some data => .ok (read_scores_from_json data)

/-- The loop of `calculate_total_raw_and_toefl_scores` over the four task
files: each file is read in turn and the first uncaught `FileNotFoundError`
aborts the whole computation. -/
def readAllTaskScores (jfs : List (String × List (String × String))) :
    List String → Except String (List (List (String × ℚ)))
  | [] => .ok []
  | f :: rest =>
    match read_scores_from_json_fs jfs f with
    | .error e => .error e
    | .ok t =>
      match readAllTaskScores jfs rest with
      | .error e => .error e
      | .ok ts => .ok (t :: ts)

/-- `ScoreCalculator.calculate_total_raw_and_toefl_scores` with file I/O:
either both result dicts, or the uncaught exception. -/
def calculate_total_raw_and_toefl_scores (jfs : List (String × List (String × String)))
    (task_files : List String) :
    Except String (List (String × ℚ) × List (String × Option ℚ)) :=
  match readAllTaskScores jfs task_files with
  | .error e => .error e
  | .ok tasks => .ok (rawScores tasks, toeflScores tasks)

/-- The four hard-coded task files of `ScoreCalculator.main`. -/
def scoreTaskFiles : List String :=
  ["task1_responses.json", "task2_responses.json",
   "task3_responses.json", "task4_responses.json"]

/-- `FeedbackFormatter.process_responses` at the task level: a missing
responses file is reported and the task is skipped (`none`); otherwise the
parsed rows are produced.  Each task is processed by an independent call. -/
def process_responses (jfs : List (String × List (String × String × String)))
    (task_number : ℕ) : Option (List (String × ℚ × ℚ × ℚ × String × String)) :=
  match lookupA ("task" ++ toString task_number ++ "_responses.json") jfs with
  | none => none
  | some data => some (process_responses_rows data)

/-- A well-formed feedback text in the format the prompt instructs, with the
two scores written in single-digit.single-digit form (`l.0` for whole-number
rubric scores). -/
def mkFeedback (lu td : Fin 5) : String :=
  "**Score for Language Use:** " ++ (Char.ofNat (48 + lu.val)).toString ++ ".0\n" ++
  "**Score for Topic Development:** " ++ (Char.ofNat (48 + td.val)).toString ++ ".0\n" ++
  "**Feedback:** Good effort overall.\n" ++
  "**Revised Version:** Revised response text."

/-- Feedback that contains no language-use score (the claim's
`MissingScore("language_use")` example). -/
def fbNoLU : String :=
  "**Score for Topic Development:** 3.0\n**Revised Version:** some text"

/-- Feedback that contains no revised-version block (the claim's
`MissingRevision` example). -/
def fbNoRev : String :=
  "**Score for Language Use:** 3.0\n**Score for Topic Development:** 3.0\nNo revision here."

/-- Feedback whose scores are written `9.9`: accepted by every parser of the
source although far above the rubric maximum of 4.0. -/
def overRangeFeedback : String :=
  "**Score for Language Use:** 9.9\n**Score for Topic Development:** 9.9\n**Revised Version:** ok"

/-- Spec-side combinator describing one `lookupA` after folding scores in:
an absent entry stays absent only when no new scores arrive. -/
def combine2 (o : Option (List ℚ)) (l : List ℚ) : Option (List ℚ) :=
  match o with
  | some l0 => some (l0 ++ l)
  | none => if l = [] then none else some l

theorem lookupA_addScore (acc : List (String × List ℚ)) (n : String) (v : ℚ) (s : String) :
    lookupA s (addScore acc n v) =
      if n = s then some (((lookupA s acc).getD []) ++ [v]) else lookupA s acc := by
  induction acc with
  | nil =>
    by_cases h : n = s <;> simp [addScore, lookupA, h]
  | cons head rest ih =>
    obtain ⟨m, l⟩ := head
    by_cases hmn : m = n
    · subst hmn
      by_cases hms : m = s
      · subst hms
        simp [addScore, lookupA]
      · simp [addScore, lookupA, hms]
    · by_cases hms : m = s
      · have hns : ¬ n = s := fun h => hmn (hms.trans h.symm)
        have hsn : ¬ s = n := fun h => hns h.symm
        simp [addScore, lookupA, hmn, hms, hns, hsn]
      · simp [addScore, lookupA, hmn, hms, ih]

theorem combine2_nil (o : Option (List ℚ)) : combine2 o [] = o := by
  cases o <;> simp [combine2]

theorem combine2_snoc (o : Option (List ℚ)) (v : ℚ) (t : List ℚ) :
    combine2 (some ((o.getD []) ++ [v])) t = combine2 o (v :: t) := by
  cases o <;> simp [combine2]

theorem combine2_assoc (o : Option (List ℚ)) (l1 l2 : List ℚ) :
    combine2 (combine2 o l1) l2 = combine2 o (l1 ++ l2) := by
  cases o with
  | some l0 => simp [combine2]
  | none =>
    by_cases h1 : l1 = []
    · subst h1; simp [combine2]
    · by_cases h2 : l2 = [] <;> simp [combine2, h1, h2]

theorem lookupA_processTaskScores (task : List (String × ℚ))
    (acc : List (String × List ℚ)) (s : String) :
    lookupA s (processTaskScores acc task) = combine2 (lookupA s acc) (taskScoresOf s task) := by
  induction task generalizing acc with
  | nil => simp [processTaskScores, taskScoresOf, combine2_nil]
  | cons head rest ih =>
    obtain ⟨m, v⟩ := head
    have hstep : processTaskScores acc ((m, v) :: rest) =
        processTaskScores (addScore acc m v) rest := rfl
    rw [hstep, ih, lookupA_addScore]
    by_cases hms : m = s
    · simp only [taskScoresOf]
      rw [if_pos hms, if_pos hms, combine2_snoc]
    · simp only [taskScoresOf]
      rw [if_neg hms, if_neg hms]

theorem lookupA_totalScores (tasks : List (List (String × ℚ)))
    (acc : List (String × List ℚ)) (s : String) :
    lookupA s (tasks.foldl processTaskScores acc) =
      combine2 (lookupA s acc) (scoresOf s tasks) := by
  induction tasks generalizing acc with
  | nil => simp [scoresOf, combine2_nil]
  | cons t ts ih =>
    simp only [List.foldl_cons, scoresOf]
    rw [ih, lookupA_processTaskScores, combine2_assoc]

theorem lookupA_map_sum (l : List (String × List ℚ)) (s : String) :
    lookupA s (l.map (fun p => (p.1, p.2.sum))) = (lookupA s l).map List.sum := by
  induction l with
  | nil => simp [lookupA]
  | cons head rest ih =>
    obtain ⟨m, v⟩ := head
    by_cases h : m = s <;> simp [lookupA, h, ih]

theorem lookupA_rawScores (tasks : List (List (String × ℚ))) (s : String) :
    lookupA s (rawScores tasks) =
      (combine2 none (scoresOf s tasks)).map List.sum := by
  rw [rawScores, lookupA_map_sum, totalScores, lookupA_totalScores]
  rfl

theorem read_scores_skip (data : List (String × String)) (n : String)
    (h : ∀ fb, (n, fb) ∈ data →
      findScoreAux luTag fb.toList = none ∨ findScoreAux tdTag fb.toList = none) :
    lookupA n (read_scores_from_json data) = none := by
  induction data with
  | nil => rfl
  | cons head rest ih =>
    obtain ⟨m, fb⟩ := head
    have hrest : ∀ fb, (n, fb) ∈ rest →
        findScoreAux luTag fb.toList = none ∨ findScoreAux tdTag fb.toList = none :=
      fun fb hm => h fb (List.mem_cons_of_mem _ hm)
    rcases hlu : findScoreAux luTag fb.toList with _ | lu
    · simp only [read_scores_from_json, hlu]
      exact ih hrest
    · rcases htd : findScoreAux tdTag fb.toList with _ | td
      · simp only [read_scores_from_json, hlu, htd]
        exact ih hrest
      · simp only [read_scores_from_json, hlu, htd, lookupA]
        have hmn : ¬ m = n := by
          intro he
          subst he
          rcases h fb (List.mem_cons_self _ _) with h1 | h1
          · rw [hlu] at h1; cases h1
          · rw [htd] at h1; cases h1
        rw [if_neg hmn]
        exact ih hrest

theorem read_scores_inv (data : List (String × String)) (n : String) (v : ℚ)
    (h : lookupA n (read_scores_from_json data) = some v) :
    ∃ fb lu td, (n, fb) ∈ data ∧ findScoreAux luTag fb.toList = some lu ∧
      findScoreAux tdTag fb.toList = some td ∧ v = (lu + td) / 2 := by
  induction data with
  | nil => cases h
  | cons head rest ih =>
    obtain ⟨m, fb⟩ := head
    rcases hlu : findScoreAux luTag fb.toList with _ | lu
    · rw [read_scores_from_json, hlu] at h
      obtain ⟨fb', lu', td', hmem, h1, h2, h3⟩ := ih h
      exact ⟨fb', lu', td', List.mem_cons_of_mem _ hmem, h1, h2, h3⟩
    · rcases htd : findScoreAux tdTag fb.toList with _ | td
      · rw [read_scores_from_json, hlu, htd] at h
        obtain ⟨fb', lu', td', hmem, h1, h2, h3⟩ := ih h
        exact ⟨fb', lu', td', List.mem_cons_of_mem _ hmem, h1, h2, h3⟩
      · rw [read_scores_from_json, hlu, htd, lookupA] at h
        by_cases hmn : m = n
        · rw [if_pos hmn] at h
          subst hmn
          refine ⟨fb, lu, td, List.mem_cons_self _ _, hlu, htd, ?_⟩
          exact (Option.some.injEq _ _ ▸ h).symm
        · rw [if_neg hmn] at h
          obtain ⟨fb', lu', td', hmem, h1, h2, h3⟩ := ih h
          exact ⟨fb', lu', td', List.mem_cons_of_mem _ hmem, h1, h2, h3⟩

theorem rows_skip (data : List (String × String × String)) (n : String)
    (h : ∀ o fb, (n, o, fb) ∈ data →
      findScoreAux luTag (pyStrip fb.toList) = none ∨
      findScoreAux tdTag (pyStrip fb.toList) = none ∨
      findRevisedAux revTag (pyStrip fb.toList) = none) :
    ∀ r ∈ process_responses_rows data, r.1 ≠ n := by
  induction data with
  | nil => intro r hr; cases hr
  | cons head rest ih =>
    obtain ⟨m, o, fb⟩ := head
    have hrest : ∀ o fb, (n, o, fb) ∈ rest →
        findScoreAux luTag (pyStrip fb.toList) = none ∨
        findScoreAux tdTag (pyStrip fb.toList) = none ∨
        findRevisedAux revTag (pyStrip fb.toList) = none :=
      fun o fb hm => h o fb (List.mem_cons_of_mem _ hm)
    rcases hlu : findScoreAux luTag (pyStrip fb.toList) with _ | lu
    · simp only [process_responses_rows, hlu]
      exact ih hrest
    · rcases htd : findScoreAux tdTag (pyStrip fb.toList) with _ | td
      · simp only [process_responses_rows, hlu, htd]
        exact ih hrest
      · rcases hrev : findRevisedAux revTag (pyStrip fb.toList) with _ | rev
        · simp only [process_responses_rows, hlu, htd, hrev]
          exact ih hrest
        · simp only [process_responses_rows, hlu, htd, hrev]
          intro r hr
          rcases List.mem_cons.mp hr with hr1 | hr2
          · subst hr1
            intro he
            rcases h o fb (by rw [← he]; exact List.mem_cons_self _ _) with h1 | h1 | h1
            · rw [hlu] at h1; cases h1
            · rw [htd] at h1; cases h1
            · rw [hrev] at h1; cases h1
          · exact ih hrest r hr2

theorem taskScoresOf_of_lookupA_none (t : List (String × ℚ)) (s : String)
    (h : lookupA s t = none) : taskScoresOf s t = [] := by
  induction t with
  | nil => rfl
  | cons head rest ih =>
    obtain ⟨m, v⟩ := head
    rw [lookupA] at h
    by_cases hms : m = s
    · rw [if_pos hms] at h; cases h
    · rw [if_neg hms] at h
      simp only [taskScoresOf]
      rw [if_neg hms]
      exact ih h

theorem ratlookup_none (l : List (ℤ × ℚ)) (r : ℚ) (h : r.den ≠ 1) :
    lookupA r (l.map (fun p => ((p.1 : ℚ), p.2))) = none := by
  induction l with
  | nil => rfl
  | cons head rest ih =>
    obtain ⟨k, v⟩ := head
    simp only [List.map_cons, lookupA]
    rw [if_neg, ih]
    intro he
    rw [← he] at h
    exact h (Rat.den_intCast k)

theorem qlookup_none (r : ℚ) (h : r.den ≠ 1) : lookupA r qKeyTable = none := by
  rw [qKeyTable]
  exact ratlookup_none convTable r h

theorem convTable_lookup_out (m : ℤ) (h : m < 0 ∨ 16 < m) :
    lookupA m convTable = none := by
  simp only [convTable, lookupA]
  repeat rw [if_neg (by omega)]

theorem convert_nonint (r : ℚ) (h : r.den ≠ 1) :
    convert_raw_to_toefl r =
      match lookupA (pytrunc r) convTable, lookupA (pytrunc r + 1) convTable with
      | some a, some b => some ((a + b) / 2)
      | _, _ => none := by
  rw [convert_raw_to_toefl, qlookup_none r h]

theorem convert_nonint_interp (r : ℚ) (h : r.den ≠ 1)
    (h1 : 0 ≤ pytrunc r) (h2 : pytrunc r ≤ 15) :
    convert_raw_to_toefl r =
      some ((tableVal (pytrunc r) + tableVal (pytrunc r + 1)) / 2) := by
  rw [convert_nonint r h]
  generalize hg : pytrunc r = k
  rw [hg] at h1 h2
  interval_cases k <;> decide

theorem convert_nonint_gap (r : ℚ) (h : r.den ≠ 1)
    (h2 : pytrunc r < 0 ∨ 15 < pytrunc r) :
    convert_raw_to_toefl r = none := by
  rw [convert_nonint r h]
  rcases h2 with h2 | h2
  · rw [convTable_lookup_out (pytrunc r) (Or.inl h2)]
  · rw [convTable_lookup_out (pytrunc r + 1) (Or.inr (by omega))]
    cases lookupA (pytrunc r) convTable <;> rfl

theorem findScore_bound (tag l : List Char) (q : ℚ)
    (h : findScoreAux tag l = some q) :
    0 ≤ q ∧ q ≤ 99 / 10 ∧ ∃ a b : ℕ, a ≤ 9 ∧ b ≤ 9 ∧ q = (a : ℚ) + (b : ℚ) / 10 := by
  induction l with
  | nil => cases h
  | cons c rest ih =>
    rw [findScoreAux] at h
    by_cases hpre : tag.isPrefixOf (c :: rest)
    · rw [if_pos hpre] at h
      rcases hdrop : (c :: rest).drop tag.length with _ | ⟨d1, _ | ⟨d2, _ | ⟨d3, tail⟩⟩⟩ <;>
        rw [hdrop] at h <;> dsimp only at h
      · exact ih h
      · exact ih h
      · exact ih h
      · by_cases hdig : (pyIsDigit d1 && d2 == '.' && pyIsDigit d3) = true
        · rw [if_pos hdig] at h
          have hq : q = (digitVal d1 : ℚ) + (digitVal d3 : ℚ) / 10 :=
            (Option.some.injEq _ _ ▸ h).symm
          have hd1 : pyIsDigit d1 = true := by
            simp only [Bool.and_eq_true] at hdig
            exact hdig.1.1
          have hd3 : pyIsDigit d3 = true := by
            simp only [Bool.and_eq_true] at hdig
            exact hdig.2
          have ha : digitVal d1 ≤ 9 := by
            simp only [pyIsDigit, Bool.and_eq_true, decide_eq_true_eq] at hd1
            simp only [digitVal]
            omega
          have hb : digitVal d3 ≤ 9 := by
            simp only [pyIsDigit, Bool.and_eq_true, decide_eq_true_eq] at hd3
            simp only [digitVal]
            omega
          have haq : (digitVal d1 : ℚ) ≤ 9 := by exact_mod_cast Nat.cast_le.mpr ha
          have hbq : (digitVal d3 : ℚ) ≤ 9 := by exact_mod_cast Nat.cast_le.mpr hb
          have ha0 : (0 : ℚ) ≤ (digitVal d1 : ℚ) := by positivity
          have hb0 : (0 : ℚ) ≤ (digitVal d3 : ℚ) := by positivity
          refine ⟨?_, ?_, digitVal d1, digitVal d3, ha, hb, hq⟩
          · rw [hq]; linarith
          · rw [hq]; linarith
        · rw [if_neg hdig] at h
          exact ih h
    · rw [if_neg hpre] at h
      exact ih h

theorem head?_dropWhile (p : Char → Bool) (l : List Char) (c : Char)
    (h : (l.dropWhile p).head? = some c) : p c = false := by
  induction l with
  | nil => cases h
  | cons a t ih =>
    rw [List.dropWhile_cons] at h
    by_cases hp : p a = true
    · rw [if_pos hp] at h
      exact ih h
    · rw [if_neg hp] at h
      cases h
      simpa using hp

theorem dropTrail_pre (p : Char → Bool) (l : List Char) : dropTrail p l <+: l := by
  have h1 : l.reverse.dropWhile p <:+ l.reverse := List.dropWhile_suffix p
  have h2 := List.reverse_prefix.mpr h1
  rwa [List.reverse_reverse] at h2

theorem head?_of_prefix {α : Type} (l1 l2 : List α) (c : α)
    (h : l1 <+: l2) (hh : l1.head? = some c) : l2.head? = some c := by
  obtain ⟨t, rfl⟩ := h
  cases l1 with
  | nil => cases hh
  | cons a t1 => simpa using hh

theorem head?_dropTrail (p : Char → Bool) (l : List Char) (c : Char)
    (h : (dropTrail p l).head? = some c) : l.head? = some c :=
  head?_of_prefix _ _ _ (dropTrail_pre p l) h

theorem getLast?_dropTrail (p : Char → Bool) (l : List Char) (c : Char)
    (h : (dropTrail p l).getLast? = some c) : p c = false := by
  rw [dropTrail, List.getLast?_reverse] at h
  exact head?_dropWhile p l.reverse c h

theorem cleanTextL_no_quote_ends (l : List Char) :
    (cleanTextL l).head? ≠ some '"' ∧ (cleanTextL l).getLast? ≠ some '"' := by
  constructor
  · intro h
    have h1 := head?_dropTrail _ _ _ h
    have h2 := head?_dropWhile (· == '"') (pyStrip l) '"' h1
    simp at h2
  · intro h
    have h2 := getLast?_dropTrail (· == '"') _ '"' h
    simp at h2

theorem dropTrail_append_of_pos (p : Char → Bool) (m : List Char) (c : Char)
    (hc : p c = true) : dropTrail p (m ++ [c]) = dropTrail p m := by
  simp [dropTrail, List.dropWhile_cons, hc]

theorem pyStrip_cons_space (l : List Char) : pyStrip (' ' :: l) = pyStrip l := by
  simp [pyStrip, List.dropWhile_cons, pyIsSpace]

theorem pyStrip_append_space (l : List Char) : pyStrip (l ++ [' ']) = pyStrip l := by
  simp only [pyStrip, List.dropWhile_append]
  by_cases h : (l.dropWhile pyIsSpace).isEmpty = true
  · rw [if_pos h]
    rw [List.isEmpty_iff] at h
    rw [h]
    rfl
  · rw [if_neg h]
    exact dropTrail_append_of_pos pyIsSpace _ ' ' (by decide)

theorem cleanTextL_pad_space (l : List Char) :
    cleanTextL (' ' :: (l ++ [' '])) = cleanTextL l := by
  simp only [cleanTextL, pyStrip_cons_space, pyStrip_append_space]

theorem renderRubric_cons_ne (p : ℚ × String) (rest : List (ℚ × String)) :
    renderRubric (p :: rest) ≠ "" := by
  obtain ⟨sc, d⟩ := p
  have hc : (": ").length = 2 := rfl
  cases rest with
  | nil =>
    intro h
    have h2 := congrArg String.length h
    simp [renderRubric, String.length_append, hc] at h2
  | cons p2 rest2 =>
    intro h
    have h2 := congrArg String.length h
    simp [renderRubric, String.length_append, hc] at h2

theorem detect_skips_missing (fs : List String) (t : ℕ)
    (ht : t ∈ [1, 2, 3, 4]) (hm : missingFiles fs t ≠ []) :
    t ∉ (detect_available_tasks fs).1 ∧
      (t, missingFiles fs t) ∈ (detect_available_tasks fs).2 := by
  constructor
  · intro hmem
    rw [detect_available_tasks] at hmem
    have := (List.mem_filter.mp hmem).2
    simp only [decide_eq_true_eq] at this
    exact hm this
  · rw [detect_available_tasks]
    refine List.mem_filterMap.mpr ⟨t, ht, ?_⟩
    rw [if_neg hm]

theorem detect_keeps_complete (fs : List String) (t : ℕ)
    (ht : t ∈ [1, 2, 3, 4]) (hm : missingFiles fs t = []) :
    t ∈ (detect_available_tasks fs).1 := by
  rw [detect_available_tasks]
  exact List.mem_filter.mpr ⟨ht, by simp [hm]⟩

theorem readAll_error_of_missing (jfs : List (String × List (String × String)))
    (files : List String) (f : String) (hf : f ∈ files)
    (hmiss : lookupA f jfs = none) :
    ∃ e, readAllTaskScores jfs files = .error e := by
  induction files with
  | nil => cases hf
  | cons g rest ih =>
    rcases List.mem_cons.mp hf with hg | hrest
    · subst hg
      refine ⟨"FileNotFoundError: " ++ f, ?_⟩
      rw [readAllTaskScores, read_scores_from_json_fs, hmiss]
    · rcases hread : read_scores_from_json_fs jfs g with e | t
      · exact ⟨e, by rw [readAllTaskScores, hread]⟩
      · obtain ⟨e, he⟩ := ih hrest
        exact ⟨e, by rw [readAllTaskScores, hread, he]⟩

theorem calc_error_of_missing (jfs : List (String × List (String × String)))
    (files : List String) (f : String) (hf : f ∈ files)
    (hmiss : lookupA f jfs = none) :
    ∃ e, calculate_total_raw_and_toefl_scores jfs files = .error e := by
  obtain ⟨e, he⟩ := readAll_error_of_missing jfs files f hf hmiss
  exact ⟨e, by rw [calculate_total_raw_and_toefl_scores, he]⟩

theorem mapPyInt_all_some (l : List (Option ℚ)) (h : ∀ x ∈ l, x ≠ none) :
    mapPyInt l = .ok (l.map (fun o => pytrunc (o.getD 0))) := by
  induction l with
  | nil => rfl
  | cons x rest ih =>
    cases x with
    | none => exact absurd rfl (h none (List.mem_cons_self _ _))
    | some q =>
      have hrest : ∀ x ∈ rest, x ≠ none := fun x hx => h x (List.mem_cons_of_mem _ hx)
      rw [mapPyInt, ih hrest]
      rfl

theorem mapPyInt_has_none (l : List (Option ℚ)) (h : none ∈ l) :
    ∃ e, mapPyInt l = .error e := by
  induction l with
  | nil => cases h
  | cons x rest ih =>
    cases x with
    | none => exact ⟨_, rfl⟩
    | some q =>
      rcases List.mem_cons.mp h with h1 | h1
      · cases h1
      · obtain ⟨e, he⟩ := ih h1
        exact ⟨e, by rw [mapPyInt, he]⟩

theorem scoresOf_nil_of_all_none (tasks : List (List (String × ℚ))) (s : String)
    (h : ∀ t ∈ tasks, lookupA s t = none) : scoresOf s tasks = [] := by
  induction tasks with
  | nil => rfl
  | cons t ts ih =>
    rw [scoresOf, taskScoresOf_of_lookupA_none t s (h t (List.mem_cons_self _ _)),
      ih (fun u hu => h u (List.mem_cons_of_mem _ hu))]
    rfl

theorem eval_with_td_rubric (q resp : String) (lur : List (ℚ × String))
    (r : List (ℚ × String)) (hr : r ≠ []) (rd ls : Option String) :
    evaluate_student_response q resp lur (some r) rd ls ≠ EvalResult.call false := by
  rcases r with _ | ⟨p, rest⟩
  · exact absurd rfl hr
  · rw [evaluate_student_response]
    by_cases hs : pyStripS resp = ""
    · rw [if_pos hs]
      intro hc
      cases hc
    · rw [if_neg hs]
      rw [if_neg (by simp : ¬ ((p :: rest : List (ℚ × String)) = [])),
        if_neg (renderRubric_cons_ne p rest)]
      intro hc
      have := EvalResult.call.inj hc
      cases this

/-- C1 (amended): `convert_raw_to_toefl` maps every integer raw score in
0..16 exactly per the fixed table; for every non-integer raw score `r`, if
`trunc(r)` (truncation toward zero, Python `int()`) and `trunc(r) + 1` are
both table keys — that is, `0 ≤ trunc(r) ≤ 15` — the result is the
arithmetic mean of their mapped values, and otherwise the result is null.
In particular `convert_raw_to_toefl(6) = 11`, `convert_raw_to_toefl(16) =
30`, `convert_raw_to_toefl(6.5) = 12.0` and `convert_raw_to_toefl(17)` is
null.  (The original claim said `floor(r)`; the code uses `int(raw_score)`,
which differs from the floor at negative non-integers.) -/
theorem conversion_table_amended (r : ℚ) (hr : r.den ≠ 1) :
    (0 ≤ pytrunc r ∧ pytrunc r ≤ 15 →
      convert_raw_to_toefl r =
        some ((tableVal (pytrunc r) + tableVal (pytrunc r + 1)) / 2)) ∧
    (pytrunc r < 0 ∨ 15 < pytrunc r → convert_raw_to_toefl r = none) ∧
    (convert_raw_to_toefl 0 = some 0 ∧ convert_raw_to_toefl 1 = some 2 ∧
     convert_raw_to_toefl 2 = some 4 ∧ convert_raw_to_toefl 3 = some 6 ∧
     convert_raw_to_toefl 4 = some 8 ∧ convert_raw_to_toefl 5 = some 9 ∧
     convert_raw_to_toefl 6 = some 11 ∧ convert_raw_to_toefl 7 = some 13 ∧
     convert_raw_to_toefl 8 = some 15 ∧ convert_raw_to_toefl 9 = some 17 ∧
     convert_raw_to_toefl 10 = some 19 ∧ convert_raw_to_toefl 11 = some 21 ∧
     convert_raw_to_toefl 12 = some 23 ∧ convert_raw_to_toefl 13 = some 24 ∧
     convert_raw_to_toefl 14 = some 26 ∧ convert_raw_to_toefl 15 = some 28 ∧
     convert_raw_to_toefl 16 = some 30) ∧
    convert_raw_to_toefl 17 = none ∧
    convert_raw_to_toefl ((13 : ℚ) / 2) = some 12 :=
  ⟨fun h => convert_nonint_interp r hr h.1 h.2,
   fun h => convert_nonint_gap r hr h,
   by decide, by decide, by decide⟩

/-- C1 witness: the amended interpolation clause applied at the non-integer
raw score 6.5, whose truncation 6 is in range. -/
theorem conversion_table_amended_wit :
    convert_raw_to_toefl ((13 : ℚ) / 2) =
      some ((tableVal (pytrunc ((13 : ℚ) / 2)) +
        tableVal (pytrunc ((13 : ℚ) / 2) + 1)) / 2) :=
  (conversion_table_amended ((13 : ℚ) / 2) (by decide)).1 ⟨by decide, by decide⟩

/-- C1 counterexample: at the non-integer raw score -0.5 the claim as stated
requires null, because `floor(-0.5) = -1` is not a table key; but the code
computes `int(-0.5) = 0` and returns the interpolated value 1. -/
theorem conversion_floor_cex :
    convert_raw_to_toefl (-(1 : ℚ) / 2) = some 1 ∧
    ⌊(-(1 : ℚ) / 2)⌋ = -1 ∧
    lookupA (-1 : ℤ) convTable = none ∧
    pytrunc (-(1 : ℚ) / 2) = 0 :=
  ⟨by decide, by decide, by decide, by decide⟩

/-- C2: for every rubric score pair in {0.0, ..., 4.0} embedded in a
well-formed feedback text with the scores in digit.digit form, both the
score-calculator parser and the feedback-formatter parser recover exactly
the two scores, and the recorded overall score is their mean. -/
theorem scores_roundtrip :
    ∀ lu td : Fin 5,
      findScoreAux luTag (mkFeedback lu td).toList = some (lu.val : ℚ) ∧
      findScoreAux tdTag (mkFeedback lu td).toList = some (td.val : ℚ) ∧
      read_scores_from_json [("s", mkFeedback lu td)] =
        [("s", ((lu.val : ℚ) + (td.val : ℚ)) / 2)] ∧
      process_responses_rows [("s", "original response", mkFeedback lu td)] =
        [("s", (lu.val : ℚ), (td.val : ℚ), ((lu.val : ℚ) + (td.val : ℚ)) / 2,
          "original response", "Revised response text.")] := by
  intro lu td
  fin_cases lu <;> fin_cases td <;> exact ⟨by decide, by decide, by decide, by decide⟩

/-- C3: for every per-task score mapping and every student appearing in at
least one task, the aggregated raw total is the sum of that student's
overall scores over exactly the tasks in which the student appears; absent
tasks contribute nothing and cause no error. -/
theorem raw_total_aggregation (tasks : List (List (String × ℚ))) (s : String)
    (h : scoresOf s tasks ≠ []) :
    lookupA s (rawScores tasks) = some ((scoresOf s tasks).sum) := by
  rw [lookupA_rawScores]
  simp [combine2, h]

/-- C3 witness: a student with overall scores 3.0 in task 1 and 2.5 in task
3, absent from tasks 2 and 4, has raw total 5.5. -/
theorem raw_total_aggregation_wit :
    lookupA "s" (rawScores [[("s", 3)], [], [("s", (5 : ℚ) / 2)], []]) =
      some ((11 : ℚ) / 2) := by
  have h := raw_total_aggregation [[("s", 3)], [], [("s", (5 : ℚ) / 2)], []] "s" (by decide)
  rw [h]
  decide

/-- C4: every evaluation request whose student response strips to the empty
string returns exactly the sentinel text, on the fast path that performs no
call to the external service. -/
theorem empty_response_short_circuit (question response : String)
    (lur : List (ℚ × String)) (tdr : Option (List (ℚ × String)))
    (rt lt : Option String) (h : pyStripS response = "") :
    evaluate_student_response question response lur tdr rt lt =
      EvalResult.noCall sentinelMsg := by
  rw [evaluate_student_response.eq_def, if_pos h]

/-- C4 witness: the whitespace-only response of the claim. -/
theorem empty_response_short_circuit_wit :
    evaluate_student_response "q" "   " language_use_rubric
      (some indep_topic_rubric) none none = EvalResult.noCall sentinelMsg :=
  empty_response_short_circuit "q" "   " language_use_rubric
    (some indep_topic_rubric) none none (by decide)

/-- C5: a student whose feedback lacks a required labeled field fails to
parse and is skipped entirely: absent from the score-calculator mapping,
contributing nothing to the aggregated raw totals, and absent from the
rows of the tabular report — never defaulted to zero. -/
theorem missing_field_skip (datas : List (List (String × String)))
    (dataF : List (String × String × String)) (n : String)
    (h1 : ∀ d ∈ datas, ∀ fb, (n, fb) ∈ d →
      findScoreAux luTag fb.toList = none ∨ findScoreAux tdTag fb.toList = none)
    (h2 : ∀ o fb, (n, o, fb) ∈ dataF →
      findScoreAux luTag (pyStrip fb.toList) = none ∨
      findScoreAux tdTag (pyStrip fb.toList) = none ∨
      findRevisedAux revTag (pyStrip fb.toList) = none) :
    (∀ d ∈ datas, lookupA n (read_scores_from_json d) = none) ∧
    lookupA n (rawScores (datas.map read_scores_from_json)) = none ∧
    (∀ r ∈ process_responses_rows dataF, r.1 ≠ n) := by
  have hskip : ∀ d ∈ datas, lookupA n (read_scores_from_json d) = none :=
    fun d hd => read_scores_skip d n (h1 d hd)
  refine ⟨hskip, ?_, rows_skip dataF n h2⟩
  rw [lookupA_rawScores, scoresOf_nil_of_all_none]
  · rfl
  · intro t ht
    obtain ⟨d, hd, rfl⟩ := List.mem_map.mp ht
    exact hskip d hd

/-- C5 witness: feedback with no language-use score is absent from the
parsed score mapping; feedback with no revision block yields no report
row. -/
theorem missing_field_skip_wit :
    lookupA "s" (read_scores_from_json [("s", fbNoLU)]) = none ∧
    lookupA "s" (rawScores ([[("s", fbNoLU)]].map read_scores_from_json)) = none := by
  have h := missing_field_skip [[("s", fbNoLU)]] [("s", "orig", fbNoRev)] "s"
    (by
      intro d hd fb hfb
      rw [List.mem_singleton] at hd
      subst hd
      rw [List.mem_singleton] at hfb
      have hfb2 : fb = fbNoLU := congrArg Prod.snd hfb
      subst hfb2
      left
      decide)
    (by
      intro o fb hm
      rw [List.mem_singleton] at hm
      have hfb2 : fb = fbNoRev := congrArg (fun p => p.2.2) hm
      subst hfb2
      right
      right
      decide)
  exact ⟨h.1 [("s", fbNoLU)] (List.mem_cons_self _ _), h.2.1⟩

/-- C6 (amended): `clean_text` strips leading/trailing whitespace from each
input and then strips all leading and all trailing literal double-quote
characters (the whole runs, not just one layer) in a single non-recursive
pass — the whitespace uncovered by quote removal is not re-stripped;
consequently the rendered diff of `"abc"` (with quotes) against `abc`
reports no difference.  (The original claim said exactly one layer of
quotes is removed; the `^"+|"+$` substitution removes every leading and
trailing quote.) -/
theorem clean_text_amended :
    (∀ l : List Char, cleanTextL (' ' :: (l ++ [' '])) = cleanTextL l) ∧
    (∀ l : List Char,
      (cleanTextL l).head? ≠ some '"' ∧ (cleanTextL l).getLast? ≠ some '"') ∧
    clean_text " \"\" a \"\" " = " a " ∧
    clean_text "\"abc\"" = clean_text "abc" ∧
    render_diff "\"abc\"" "abc" = [Span.unchanged ["abc"]] :=
  ⟨cleanTextL_pad_space, cleanTextL_no_quote_ends, by decide, by decide, by decide⟩

/-- C6 counterexample: on the input `""a""` the code removes both quote
layers and returns `a`, while the claim's exactly-one-layer reading returns
`"a"`. -/
theorem clean_text_one_layer_cex :
    clean_text "\"\"a\"\"" = "a" ∧
    clean_text_one_layer "\"\"a\"\"" = "\"a\"" ∧
    clean_text "\"\"a\"\"" ≠ clean_text_one_layer "\"\"a\"\"" :=
  ⟨by decide, by decide, by decide⟩

/-- C7 (amended): every score extracted by the digit.digit pattern, and
every overall score recorded for a successfully parsed student, lies in
[0.0, 9.9] and is of the form d1 + d2/10 for digits d1, d2.  (The original
claim asserted the rubric range [0.0, 4.0]; the parser enforces no upper
bound below 9.9.) -/
theorem parsed_score_bounds :
    (∀ tag l q, findScoreAux tag l = some q →
      0 ≤ q ∧ q ≤ 99 / 10 ∧ ∃ a b : ℕ, a ≤ 9 ∧ b ≤ 9 ∧ q = (a : ℚ) + (b : ℚ) / 10) ∧
    (∀ data n v, lookupA n (read_scores_from_json data) = some v →
      0 ≤ v ∧ v ≤ 99 / 10) := by
  refine ⟨findScore_bound, ?_⟩
  intro data n v h
  obtain ⟨fb, lu, td, hmem, hlu, htd, hv⟩ := read_scores_inv data n v h
  obtain ⟨hlu0, hlu1, -⟩ := findScore_bound _ _ _ hlu
  obtain ⟨htd0, htd1, -⟩ := findScore_bound _ _ _ htd
  constructor
  · rw [hv]; linarith
  · rw [hv]; linarith

/-- C7 witness: the bounds applied to the language-use score 9.9 extracted
from `overRangeFeedback`. -/
theorem parsed_score_bounds_wit :
    0 ≤ (99 : ℚ) / 10 ∧ (99 : ℚ) / 10 ≤ 99 / 10 ∧
      ∃ a b : ℕ, a ≤ 9 ∧ b ≤ 9 ∧ (99 : ℚ) / 10 = (a : ℚ) + (b : ℚ) / 10 :=
  parsed_score_bounds.1 luTag overRangeFeedback.toList ((99 : ℚ) / 10) (by decide)

/-- C7 counterexample: both parsers accept a feedback text whose scores are
9.9, and 9.9 is outside [0.0, 4.0]. -/
theorem parsed_score_above_four_cex :
    findScoreAux luTag overRangeFeedback.toList = some ((99 : ℚ) / 10) ∧
    read_scores_from_json [("s", overRangeFeedback)] = [("s", (99 : ℚ) / 10)] ∧
    process_responses_rows [("s", "orig", overRangeFeedback)] ≠ [] ∧
    ¬ ((99 : ℚ) / 10 ≤ 4) :=
  ⟨by decide, by decide, by decide, by decide⟩

/-- C8 (amended): in `mdMaker.detect_available_tasks` a task with a missing
required input file is reported with its missing files and excluded from the
available list while complete tasks remain available, and
`FeedbackFormatter.process_responses` skips a task whose responses file is
absent; but in `ScoreCalculator.calculate_total_raw_and_toefl_scores` a
missing task responses file raises an uncaught `FileNotFoundError` that
aborts the whole batch, so no output is produced for the remaining tasks.
(The original claim asserted per-task containment for every batch runner.) -/
theorem missing_file_handling_amended (fs : List String)
    (jfsR : List (String × List (String × String)))
    (jfsF : List (String × List (String × String × String)))
    (t : ℕ) (files : List String) (f : String) (ht : t ∈ [1, 2, 3, 4]) :
    (missingFiles fs t ≠ [] → t ∉ (detect_available_tasks fs).1 ∧
      (t, missingFiles fs t) ∈ (detect_available_tasks fs).2) ∧
    (missingFiles fs t = [] → t ∈ (detect_available_tasks fs).1) ∧
    (lookupA ("task" ++ toString t ++ "_responses.json") jfsF = none →
      process_responses jfsF t = none) ∧
    (f ∈ files → lookupA f jfsR = none →
      ∃ e, calculate_total_raw_and_toefl_scores jfsR files = .error e) := by
  refine ⟨fun hm => detect_skips_missing fs t ht hm,
    fun hm => detect_keeps_complete fs t ht hm,
    fun hmiss => ?_,
    fun hf hmiss => calc_error_of_missing jfsR files f hf hmiss⟩
  rw [process_responses, hmiss]

/-- C8 witness: with an empty file system, task 2 is reported missing and
excluded, the formatter skips it, and the score-calculator batch errors. -/
theorem missing_file_handling_amended_wit :
    (2 ∉ (detect_available_tasks ([] : List String)).1 ∧
      (2, missingFiles [] 2) ∈ (detect_available_tasks ([] : List String)).2) ∧
    process_responses ([] : List (String × List (String × String × String))) 2 = none ∧
    ∃ e, calculate_total_raw_and_toefl_scores
      ([] : List (String × List (String × String))) scoreTaskFiles = .error e := by
  have h := missing_file_handling_amended []
    ([] : List (String × List (String × String)))
    ([] : List (String × List (String × String × String)))
    2 scoreTaskFiles "task2_responses.json" (by decide)
  exact ⟨h.1 (by decide), h.2.2.1 rfl, h.2.2.2 (by decide) rfl⟩

/-- C8 counterexample: a batch of the score calculator in which tasks 1, 3
and 4 have well-formed parseable responses but the task-2 file is absent
aborts with `FileNotFoundError` and produces no output for the remaining
tasks, falsifying the claim that only the affected task is skipped. -/
theorem scorecalc_missing_file_cex :
    calculate_total_raw_and_toefl_scores
      [("task1_responses.json", [("alice", mkFeedback 3 4)]),
       ("task3_responses.json", [("alice", mkFeedback 2 3)]),
       ("task4_responses.json", [("alice", mkFeedback 4 4)])]
      scoreTaskFiles = .error "FileNotFoundError: task2_responses.json" ∧
    read_scores_from_json [("alice", mkFeedback 3 4)] ≠ [] :=
  ⟨by decide, by decide⟩

/-- C9: `save_scores_to_files` persists `int(scaled_score)` — truncation
toward zero — for every student when all scaled scores are present, and
raises a `TypeError` when any scaled score is `None`; in particular the raw
total 12.5 converts to the half-integer 23.5, which is persisted as 23,
not as the exact mean and not as the rounded value 24. -/
theorem save_truncates_and_raises (raw : List (String × ℚ))
    (toefl : List (String × Option ℚ)) :
    ((∀ x ∈ toefl, x.2 ≠ none) →
      save_scores_to_files raw toefl =
        .ok (List.zipWith (fun p i => (p.1, i, p.2)) raw
          ((toefl.map Prod.snd).map (fun o => pytrunc (o.getD 0))))) ∧
    ((∃ x ∈ toefl, x.2 = none) →
      ∃ e, save_scores_to_files raw toefl = .error e) ∧
    convert_raw_to_toefl ((25 : ℚ) / 2) = some ((47 : ℚ) / 2) ∧
    pytrunc ((47 : ℚ) / 2) = 23 ∧
    ((47 : ℚ) / 2 ≠ (23 : ℚ)) ∧
    round ((47 : ℚ) / 2) = 24 := by
  refine ⟨?_, ?_, by decide, by decide, by decide, ?_⟩
  · intro h
    rw [save_scores_to_files, mapPyInt_all_some]
    intro x hx
    obtain ⟨p, hp, rfl⟩ := List.mem_map.mp hx
    exact h p hp
  · rintro ⟨x, hx, hxn⟩
    obtain ⟨e, he⟩ := mapPyInt_has_none (toefl.map Prod.snd)
      (List.mem_map.mpr ⟨x, hx, hxn⟩)
    exact ⟨e, by rw [save_scores_to_files, he]⟩
  · rw [round_eq]
    decide

/-- C9 witness: a student with raw total 12.5 is saved with integer TOEFL
score 23, and a student with a null scaled score makes the save raise. -/
theorem save_truncates_and_raises_wit :
    save_scores_to_files [("alice", (25 : ℚ) / 2)] [("alice", some ((47 : ℚ) / 2))] =
      .ok (List.zipWith (fun p i => (p.1, i, p.2)) [("alice", (25 : ℚ) / 2)]
        (([("alice", some ((47 : ℚ) / 2))].map Prod.snd).map
          (fun o => pytrunc (o.getD 0)))) ∧
    ∃ e, save_scores_to_files [("bob", (1 : ℚ))] [("bob", none)] = .error e := by
  have h1 := save_truncates_and_raises [("alice", (25 : ℚ) / 2)]
    [("alice", some ((47 : ℚ) / 2))]
  have h2 := save_truncates_and_raises [("bob", (1 : ℚ))]
    [("bob", (none : Option ℚ))]
  exact ⟨h1.1 (by decide), h2.2.1 ⟨("bob", none), List.mem_cons_self _ _, rfl⟩⟩

set_option maxRecDepth 100000

/-- C10: `grade_task` always supplies a topic-development rubric — the
independent variant exactly for task `'1'`, the integrated variant for the
other task numbers — and every such rubric is a non-empty dict, so the
no-topic-development prompt branch of `evaluate_student_response` is never
taken within the pipeline; and the downstream parser indeed requires both
score fields for every recorded student. -/
theorem td_rubric_always_present (t : String)
    (ht : t = "1" ∨ t = "2" ∨ t = "3" ∨ t = "4") :
    (topicRubricFor t = indep_topic_rubric ↔ t = "1") ∧
    (topicRubricFor t = integ_topic_rubric ↔ t ≠ "1") ∧
    topicRubricFor t ≠ [] ∧
    (∀ q resp rd ls, evaluate_student_response q resp language_use_rubric
      (some (topicRubricFor t)) rd ls ≠ EvalResult.call false) ∧
    (∀ data n v, lookupA n (read_scores_from_json data) = some v →
      ∃ fb, (n, fb) ∈ data ∧ (findScoreAux luTag fb.toList).isSome ∧
        (findScoreAux tdTag fb.toList).isSome) := by
  have htne : topicRubricFor t ≠ [] := by
    rcases ht with rfl | rfl | rfl | rfl <;> decide
  refine ⟨?_, ?_, htne,
    fun q resp rd ls => eval_with_td_rubric q resp language_use_rubric
      (topicRubricFor t) htne rd ls, ?_⟩
  · rcases ht with rfl | rfl | rfl | rfl <;> decide
  · rcases ht with rfl | rfl | rfl | rfl <;> decide
  · intro data n v h
    obtain ⟨fb, lu, td, hmem, hlu, htd, -⟩ := read_scores_inv data n v h
    exact ⟨fb, hmem, by rw [hlu]; rfl, by rw [htd]; rfl⟩

/-- C10 witness: for task `'2'` the integrated rubric is selected, no
evaluation of a non-empty response takes the no-topic-development branch,
and a parsed student always has both score fields. -/
theorem td_rubric_always_present_wit :
    (topicRubricFor "2" = indep_topic_rubric ↔ ("2" : String) = "1") ∧
    topicRubricFor "2" ≠ [] ∧
    evaluate_student_response "q" "hello" language_use_rubric
      (some (topicRubricFor "2")) none none ≠ EvalResult.call false ∧
    ∃ fb, ("s", fb) ∈ [("s", mkFeedback 2 3)] ∧
      (findScoreAux luTag fb.toList).isSome ∧
      (findScoreAux tdTag fb.toList).isSome := by
  have h := td_rubric_always_present "2" (Or.inr (Or.inl rfl))
  exact ⟨h.1, h.2.2.1, h.2.2.2.1 "q" "hello" none none,
    h.2.2.2.2 [("s", mkFeedback 2 3)] "s" (((2 : ℚ) + 3) / 2) (by decide)⟩
